import Mathlib

/-!
Verification development for the Student Career Success Predictor.

The repository is a full-stack ML application: a FastAPI backend (pydantic
validation, a scikit-learn pipeline of mean/mode imputation, standard
scaling, one-hot encoding and a 200-tree random forest, with a module-level
pipeline cache) and a React/TypeScript frontend (prediction form, metrics
dashboard, history table).

The backend logic is embedded here over exact rational arithmetic: the
`calculate_confidence` / `predict` / `load_pipeline` functions of the ML
service, the pydantic `StudentInput` validation of the `/predict` route, the
fitted-parameter semantics of `StandardScaler` (including its
`_handle_zeros_in_scale` zero-variance guard) and of
`OneHotEncoder(handle_unknown='ignore')`, the numpy `argmax` tie-breaking
underlying `RandomForestClassifier.predict`, and the frontend's
`handleChange` numeric coercion and `MetricCard` display coercion.
Evaluation-metric computation (accuracy/precision/recall/F1, ROC curve and
AUC, feature importances) is not present in the repository sources and is
modelled from the specification where noted.
-/

namespace CareerPredictor

/-! ## String constants (feature / field names used by the service) -/

def gpaField : String := "University_GPA"

def fosField : String := "Field_of_Study"

def genderField : String := "Gender"

def internField : String := "Internships_Completed"

def softField : String := "Soft_Skills_Score"

def netField : String := "Networking_Score"

/-! ## ML service: confidence

`calculate_confidence(probability)` returns `abs(probability - 0.5) * 2`
(backend ML service). -/

def calculate_confidence (probability : ℚ) : ℚ :=
  |probability - 1/2| * 2

/-! ## Random-forest prediction

`pipeline.predict(df)` is `RandomForestClassifier.predict`, which takes
`classes_.take(np.argmax(predict_proba(X), axis=1))`; `np.argmax` returns
the FIRST index attaining the maximum.  `predict_proba` for the binary
forest averages per-tree class-1 probabilities, giving the row
`[1 - p, p]`. -/

def argmaxAux : List ℚ → ℕ → ℕ → ℚ → ℕ
  | [], _, bi, _ => bi
  | x :: xs, i, bi, bv =>
      if bv < x then argmaxAux xs (i + 1) i x else argmaxAux xs (i + 1) bi bv

/-- First index of the maximum of a list (numpy `argmax`; 0 on `[]`). -/
def argmaxIdx : List ℚ → ℕ
  | [] => 0
  | x :: xs => argmaxAux xs 1 0 x

/-- Mean of the per-tree class-1 probabilities (forest `predict_proba[_, 1]`). -/
def forestProba (treeProbs : List ℚ) : ℚ :=
  treeProbs.sum / (treeProbs.length : ℚ)

/-- The label `RandomForestClassifier.predict` derives from the class-1
probability `p`: `argmax` over the probability row `[1 - p, p]`. -/
def predictLabelFromProba (p : ℚ) : ℕ :=
  argmaxIdx [1 - p, p]

/-! ## StandardScaler

`numerical_pipeline = Pipeline([('imputer', SimpleImputer(strategy='mean')),
('scaler', StandardScaler())])`.  A fitted `StandardScaler` stores `mean_`
and `scale_`, where `scale_` is `sqrt(var_)` passed through sklearn's
`_handle_zeros_in_scale`, which replaces a zero scale by 1; `transform`
computes `(x - mean_) / scale_`.  Imputation replaces only missing values,
so on the always-present validated inputs it is the identity. -/

def listMean (xs : List ℚ) : ℚ :=
  xs.sum / (xs.length : ℚ)

def listVar (xs : List ℚ) : ℚ :=
  ((xs.map fun x => (x - listMean xs) ^ 2).sum) / (xs.length : ℚ)

/-- sklearn `_handle_zeros_in_scale`: a zero scale becomes 1. -/
def handle_zeros_in_scale (s : ℚ) : ℚ :=
  if s = 0 then 1 else s

structure StandardScalerFitted where
  mean : ℚ
  scale : ℚ
  deriving Repr

/-- Fit a `StandardScaler` on training values `xs`; `std` is the standard
deviation of `xs` (characterized in theorems by `std ^ 2 = listVar xs` and
`0 ≤ std`, since the square root is irrational in general). -/
def fitStandardScaler (xs : List ℚ) (std : ℚ) : StandardScalerFitted :=
  { mean := listMean xs, scale := handle_zeros_in_scale std }

def StandardScalerFitted.transform (sc : StandardScalerFitted) (x : ℚ) : ℚ :=
  (x - sc.mean) / sc.scale

/-! ## OneHotEncoder

`categorical_pipeline = Pipeline([('imputer',
SimpleImputer(strategy='most_frequent')), ('onehot',
OneHotEncoder(handle_unknown='ignore'))])`. -/

inductive HandleUnknown where
  | raiseError
  | ignore
  deriving Repr, DecidableEq

/-- Indicator block of `x` against the fitted vocabulary (one column per
known category).  For `x` outside the vocabulary every indicator is 0. -/
def oneHotIgnore (vocab : List String) (x : String) : List ℚ :=
  vocab.map fun c => if c = x then 1 else 0

/-- `OneHotEncoder.transform` on one value: with `handle_unknown='error'`
an unknown category raises (`none`); with `handle_unknown='ignore'` it
yields the all-zero indicator block. -/
def oneHotEncode (hu : HandleUnknown) (vocab : List String) (x : String) :
    Option (List ℚ) :=
  if x ∈ vocab then some (oneHotIgnore vocab x)
  else
    match hu with
    | .raiseError => none
    | .ignore => some (oneHotIgnore vocab x)

/-! ## Validated student record and fitted pipeline -/

/-- A validated `StudentInput` (pydantic model of the `/predict` route). -/
structure StudentInput where
  University_GPA : ℚ
  Field_of_Study : String
  Gender : String
  Internships_Completed : ℤ
  Soft_Skills_Score : ℚ
  Networking_Score : ℚ

/-- The fitted pipeline: per-feature scaler parameters, categorical
vocabularies, and the forest's trees, each mapping an encoded feature
vector to its leaf class-1 probability.  Feature order follows
`create_ml_pipeline`: numerical `['University_GPA', 'Soft_Skills_Score',
'Networking_Score', 'Internships_Completed']` then categorical
`['Field_of_Study', 'Gender']`. -/
structure Pipeline where
  gpaScaler : StandardScalerFitted
  softScaler : StandardScalerFitted
  netScaler : StandardScalerFitted
  internScaler : StandardScalerFitted
  fosVocab : List String
  genderVocab : List String
  trees : List (List ℚ → ℚ)

def Pipeline.encode (pl : Pipeline) (s : StudentInput) : List ℚ :=
  [pl.gpaScaler.transform s.University_GPA,
   pl.softScaler.transform s.Soft_Skills_Score,
   pl.netScaler.transform s.Networking_Score,
   pl.internScaler.transform (s.Internships_Completed : ℚ)]
  ++ oneHotIgnore pl.fosVocab s.Field_of_Study
  ++ oneHotIgnore pl.genderVocab s.Gender

/-- `pipeline.predict_proba(df)[0][1]`: the averaged class-1 probability. -/
def Pipeline.predict_proba (pl : Pipeline) (s : StudentInput) : ℚ :=
  forestProba (pl.trees.map fun t => t (pl.encode s))

/-- The `/predict` response body `{predicted_label, probability, confidence}`. -/
structure PredictionResponse where
  predicted_label : ℕ
  probability : ℚ
  confidence : ℚ

/-- `make_prediction` of the ML service: `predicted_label` from
`pipeline.predict`, `probability` from `pipeline.predict_proba`, and
`confidence` recomputed from the probability by `calculate_confidence`. -/
def make_prediction (pl : Pipeline) (s : StudentInput) : PredictionResponse :=
  let p := pl.predict_proba s
  { predicted_label := predictLabelFromProba p
    probability := p
    confidence := calculate_confidence p }

/-! ## Pipeline cache

```
_cached_pipeline = None
def load_pipeline():
    global _cached_pipeline
    if _cached_pipeline is not None:
        return _cached_pipeline
    db_service = DatabaseService()
    _cached_pipeline = db_service.get_trained_pipeline()
    db_service.close()
    return _cached_pipeline
```
State passing: first component is the returned value, second the cache
(`_cached_pipeline`) after the call; `store` is what
`get_trained_pipeline()` yields from the model store. -/

def load_pipeline (cache store : Option Pipeline) :
    Option Pipeline × Option Pipeline :=
  match cache with
  | some p => (some p, some p)
  | none => (store, store)

/-! ## Validation (pydantic `StudentInput` of the `/predict` route)

```
class StudentInput(BaseModel):
    University_GPA: float = Field(ge=0, le=10)
    Field_of_Study: str = Field(min_length=1)
    Gender: str = Field(min_length=1)
    Internships_Completed: int = Field(ge=0)
    Soft_Skills_Score: float = Field(ge=0, le=10)
    Networking_Score: float = Field(ge=0, le=10)
```
FastAPI runs this validation before the route body executes; a violation
produces a validation error naming the offending fields, and the ML
service is never invoked.  `none` models an absent field of the request
payload. -/

structure RawStudentInput where
  University_GPA : Option ℚ
  Field_of_Study : Option String
  Gender : Option String
  Internships_Completed : Option ℤ
  Soft_Skills_Score : Option ℚ
  Networking_Score : Option ℚ

def gpaErr (raw : RawStudentInput) : List String :=
  match raw.University_GPA with
  | none => [gpaField]
  | some g => if g < 0 ∨ 10 < g then [gpaField] else []

def fosErr (raw : RawStudentInput) : List String :=
  match raw.Field_of_Study with
  | none => [fosField]
  | some f => if f.length = 0 then [fosField] else []

def genderErr (raw : RawStudentInput) : List String :=
  match raw.Gender with
  | none => [genderField]
  | some f => if f.length = 0 then [genderField] else []

def internErr (raw : RawStudentInput) : List String :=
  match raw.Internships_Completed with
  | none => [internField]
  | some n => if n < 0 then [internField] else []

def softErr (raw : RawStudentInput) : List String :=
  match raw.Soft_Skills_Score with
  | none => [softField]
  | some v => if v < 0 ∨ 10 < v then [softField] else []

def netErr (raw : RawStudentInput) : List String :=
  match raw.Networking_Score with
  | none => [netField]
  | some v => if v < 0 ∨ 10 < v then [netField] else []

/-- The offending fields of a payload, in pydantic declaration order. -/
def fieldErrs (raw : RawStudentInput) : List String :=
  gpaErr raw ++ fosErr raw ++ genderErr raw ++ internErr raw ++ softErr raw
    ++ netErr raw

def buildStudent (raw : RawStudentInput) : Option StudentInput :=
  match raw.University_GPA, raw.Field_of_Study, raw.Gender,
      raw.Internships_Completed, raw.Soft_Skills_Score,
      raw.Networking_Score with
  | some g, some f, some gd, some n, some ss, some ns =>
      some ⟨g, f, gd, n, ss, ns⟩
  | _, _, _, _, _, _ => none

/-- Pydantic validation: succeeds exactly when no field offends, otherwise
fails with the list of offending field names. -/
def validateStudentInput (raw : RawStudentInput) :
    Except (List String) StudentInput :=
  match fieldErrs raw with
  | [] =>
      match buildStudent raw with
      | some s => .ok s
      | none => .error []
  | errs => .error errs

/-! ## The `/predict` endpoint -/

inductive ApiError where
  | invalidInput (fields : List String)
  | modelNotTrained
  deriving Repr, DecidableEq

/-- The ML service's `predict` on a validated record.  Modelled from the
spec: the route's translation of an empty model store into a
`ModelNotTrainedError` response is not among the repository sources (only
`load_pipeline` and the happy path are); per the spec, `predict` "fails
with ModelNotTrainedError if the Model Store has no persisted pipeline". -/
def predictService (cache store : Option Pipeline) (s : StudentInput) :
    Except ApiError PredictionResponse × Option Pipeline :=
  match load_pipeline cache store with
  | (some pl, cache') => (.ok (make_prediction pl s), cache')
  | (none, cache') => (.error .modelNotTrained, cache')

/-- `POST /predict`: pydantic validation first; only a validated record
reaches the ML service. -/
def predictEndpoint (cache store : Option Pipeline) (raw : RawStudentInput) :
    Except ApiError PredictionResponse × Option Pipeline :=
  match validateStudentInput raw with
  | .error errs => (.error (.invalidInput errs), cache)
  | .ok s => predictService cache store s

/-! ## Frontend: `PredictionForm.handleChange`

```
const { name, value } = e.target;
setFormData(prev => ({
  ...prev,
  [name]: (name === 'Field_of_Study' || name === 'Gender')
    ? value
    : parseFloat(value) || 0
}));
```
`JsNum` is a JS number that may be `NaN`; `jsOrZero` is `x || 0` on such a
number (both `NaN` and `0` are falsy). -/

inductive JsNum where
  | nan
  | num (q : ℚ)
  deriving Repr, DecidableEq

def jsOrZero : JsNum → JsNum
  | .nan => .num 0
  | .num q => if q = 0 then .num 0 else .num q

inductive FormField where
  | gpa
  | fos
  | gender
  | interns
  | soft
  | net
  deriving Repr, DecidableEq

structure FormDataState where
  University_GPA : JsNum
  Field_of_Study : String
  Gender : String
  Internships_Completed : JsNum
  Soft_Skills_Score : JsNum
  Networking_Score : JsNum
  deriving Repr, DecidableEq

/-- `useState<StudentInput>({University_GPA: 0, Field_of_Study: '', ...})`. -/
def initialFormData : FormDataState :=
  { University_GPA := .num 0
    Field_of_Study := ""
    Gender := ""
    Internships_Completed := .num 0
    Soft_Skills_Score := .num 0
    Networking_Score := .num 0 }

/-- One `handleChange` event: `pf` is JS `parseFloat` on the event value
(kept abstract; `JsNum.nan` models a parse failure). -/
def handleChange (pf : String → JsNum) (fd : FormDataState) (name : FormField)
    (value : String) : FormDataState :=
  match name with
  | .fos => { fd with Field_of_Study := value }
  | .gender => { fd with Gender := value }
  | .gpa => { fd with University_GPA := jsOrZero (pf value) }
  | .interns => { fd with Internships_Completed := jsOrZero (pf value) }
  | .soft => { fd with Soft_Skills_Score := jsOrZero (pf value) }
  | .net => { fd with Networking_Score := jsOrZero (pf value) }

def applyEvents (pf : String → JsNum) (events : List (FormField × String))
    (fd : FormDataState) : FormDataState :=
  events.foldl (fun acc ev => handleChange pf acc ev.1 ev.2) fd

def numericFields (fd : FormDataState) : List JsNum :=
  [fd.University_GPA, fd.Internships_Completed, fd.Soft_Skills_Score,
   fd.Networking_Score]

/-! ## Frontend: `Dashboard` metric cards and the metrics schema

`<MetricCard title="ROC-AUC" value={metrics?.roc_auc || 0} />`, with the
TypeScript type `roc_auc: number` and the backend column
`roc_auc = Column(Float, nullable=False)`.  `metricCardValue` is the value
the card renders (as a fraction; the card shows `(value * 100).toFixed(2)`):
an absent/undefined metric (`none`), a `NaN` and a `0` all display as 0. -/

def metricCardValue (rocAuc : Option JsNum) : ℚ :=
  match rocAuc with
  | none => 0
  | some .nan => 0
  | some (.num q) => if q = 0 then 0 else q

/-- `ModelMetrics.roc_auc = Column(Float, nullable=False)`: the stored
metric cannot be NULL. -/
def rocAucColumnNullable : Bool := false

/-! ## Evaluation metrics

Modelled from the spec: the training script's metric computation is not
among the repository sources (only the `ModelMetrics` schema, the
TypeScript `ModelMetrics` interface and the dashboard that displays them
are).  Per the spec: accuracy, precision, recall and F1 at the 0.5
decision threshold; the ROC curve and its AUC by sweeping the decision
threshold; feature importances normalized to sum 1.  A test example is a
pair `(label, score)` with `score` the predicted class-1 probability. -/

def posCount (pairs : List (Bool × ℚ)) : ℕ :=
  pairs.countP fun pr => pr.1

def negCount (pairs : List (Bool × ℚ)) : ℕ :=
  pairs.countP fun pr => !pr.1

/-- True positives when predicting positive at `score ≥ t`. -/
def tpAt (pairs : List (Bool × ℚ)) (t : ℚ) : ℕ :=
  pairs.countP fun pr => pr.1 && decide (t ≤ pr.2)

/-- False positives when predicting positive at `score ≥ t`. -/
def fpAt (pairs : List (Bool × ℚ)) (t : ℚ) : ℕ :=
  pairs.countP fun pr => !pr.1 && decide (t ≤ pr.2)

/-- Examples classified correctly at the default 0.5 threshold. -/
def correctCount (pairs : List (Bool × ℚ)) : ℕ :=
  pairs.countP fun pr => decide ((1/2 : ℚ) ≤ pr.2) == pr.1

def accuracyOf (pairs : List (Bool × ℚ)) : ℚ :=
  (correctCount pairs : ℚ) / (pairs.length : ℚ)

def precisionOf (pairs : List (Bool × ℚ)) : ℚ :=
  if tpAt pairs (1/2) + fpAt pairs (1/2) = 0 then 0
  else (tpAt pairs (1/2) : ℚ) / ((tpAt pairs (1/2) : ℚ) + (fpAt pairs (1/2) : ℚ))

def recallOf (pairs : List (Bool × ℚ)) : ℚ :=
  if posCount pairs = 0 then 0
  else (tpAt pairs (1/2) : ℚ) / (posCount pairs : ℚ)

def f1Of (pairs : List (Bool × ℚ)) : ℚ :=
  if precisionOf pairs + recallOf pairs = 0 then 0
  else 2 * precisionOf pairs * recallOf pairs
    / (precisionOf pairs + recallOf pairs)

def scoresOf (pairs : List (Bool × ℚ)) : List ℚ :=
  pairs.map Prod.snd

def maxScore (pairs : List (Bool × ℚ)) : ℚ :=
  (scoresOf pairs).foldr max 0

/-- Threshold sweep: a sentinel above every score (yielding the (0,0)
point), then the distinct scores in decreasing order (the lowest yielding
the (1,1) point). -/
def rocThresholds (pairs : List (Bool × ℚ)) : List ℚ :=
  (maxScore pairs + 1) :: (scoresOf pairs).dedup.insertionSort (· ≥ ·)

def rocPoint (pairs : List (Bool × ℚ)) (t : ℚ) : ℚ × ℚ :=
  ((fpAt pairs t : ℚ) / (negCount pairs : ℚ),
   (tpAt pairs t : ℚ) / (posCount pairs : ℚ))

def rocPoints (pairs : List (Bool × ℚ)) : List (ℚ × ℚ) :=
  (rocThresholds pairs).map (rocPoint pairs)

/-- Trapezoidal area under a polyline given as `(x, y)` points. -/
def trapArea : List (ℚ × ℚ) → ℚ
  | p :: q :: rest => (q.1 - p.1) * (p.2 + q.2) / 2 + trapArea (q :: rest)
  | _ => 0

def rocAucOf (pairs : List (Bool × ℚ)) : ℚ :=
  trapArea (rocPoints pairs)

/-- Importances normalized by their total (forest `feature_importances_`). -/
def normalizeImportances (ws : List (String × ℚ)) : List (String × ℚ) :=
  ws.map fun fw => (fw.1, fw.2 / (ws.map Prod.snd).sum)

structure EvaluationMetrics where
  accuracy : ℚ
  precision : ℚ
  recall' : ℚ
  f1_score : ℚ
  roc_auc : ℚ
  feature_importances : List (String × ℚ)
  fpr : List ℚ
  tpr : List ℚ

/-- Modelled from the spec: the `EvaluationMetrics` of one training run,
from the test-partition pairs and the raw (unnormalized) impurity-based
feature attributions `ws`. -/
def computeMetrics (pairs : List (Bool × ℚ)) (ws : List (String × ℚ)) :
    EvaluationMetrics :=
  { accuracy := accuracyOf pairs
    precision := precisionOf pairs
    recall' := recallOf pairs
    f1_score := f1Of pairs
    roc_auc := rocAucOf pairs
    feature_importances := normalizeImportances ws
    fpr := (rocPoints pairs).map Prod.fst
    tpr := (rocPoints pairs).map Prod.snd }

/-! ## Concrete sample objects (used as witnesses and counterexamples) -/

def csValue : String := "Computer Science"

def maleValue : String := "Male"

def femaleValue : String := "Female"

def otherValue : String := "Other"

def idScaler : StandardScalerFitted :=
  { mean := 0, scale := 1 }

/-- A fitted pipeline whose two trees yield class-1 probabilities 0 and 1,
so the averaged probability is exactly 1/2. -/
def tiePipeline : Pipeline :=
  { gpaScaler := idScaler
    softScaler := idScaler
    netScaler := idScaler
    internScaler := idScaler
    fosVocab := [csValue]
    genderVocab := [maleValue, femaleValue]
    trees := [fun _ => 0, fun _ => 1] }

/-- The end-to-end scenario record {GPA 8.5, CS, Male, 3, 8.0, 7.5}. -/
def sampleStudent : StudentInput :=
  { University_GPA := 17/2
    Field_of_Study := csValue
    Gender := maleValue
    Internships_Completed := 3
    Soft_Skills_Score := 8
    Networking_Score := 15/2 }

/-- The same record as a raw payload, except GPA 11 (out of domain). -/
def badGpaRaw : RawStudentInput :=
  { University_GPA := some 11
    Field_of_Study := some csValue
    Gender := some maleValue
    Internships_Completed := some 3
    Soft_Skills_Score := some 8
    Networking_Score := some (15/2) }

/-! ## Helper lemmas -/

theorem argmaxIdx_pair (a b : ℚ) : argmaxIdx [a, b] = if a < b then 1 else 0 := by
  unfold argmaxIdx argmaxAux
  split <;> rfl

theorem predictLabel_eq_one_iff (p : ℚ) :
    predictLabelFromProba p = 1 ↔ 1/2 < p := by
  rw [predictLabelFromProba, argmaxIdx_pair]
  split_ifs with h
  · exact ⟨fun _ => by linarith, fun _ => rfl⟩
  · constructor
    · intro h1
      exact absurd h1 (by norm_num)
    · intro hp
      exact absurd (by linarith : 1 - p < p) h

theorem jsOrZero_is_num (v : JsNum) : ∃ q, jsOrZero v = JsNum.num q := by
  cases v with
  | nan => exact ⟨0, rfl⟩
  | num q =>
      by_cases h : q = 0
      · exact ⟨0, by simp [jsOrZero, h]⟩
      · exact ⟨q, by simp [jsOrZero, h]⟩

theorem numericFields_handleChange (pf : String → JsNum) (fd : FormDataState)
    (name : FormField) (value : String)
    (h : ∀ n ∈ numericFields fd, ∃ q, n = JsNum.num q) :
    ∀ n ∈ numericFields (handleChange pf fd name value), ∃ q, n = JsNum.num q := by
  intro n hn
  cases name <;>
    simp only [handleChange, numericFields, List.mem_cons, List.mem_singleton,
      List.not_mem_nil, or_false] at hn ⊢ <;>
    rcases hn with hn | hn | hn | hn <;>
    first
      | exact hn ▸ jsOrZero_is_num _
      | exact h n (by simp [numericFields, hn])

theorem numericFields_applyEvents (pf : String → JsNum)
    (events : List (FormField × String)) (fd : FormDataState)
    (h : ∀ n ∈ numericFields fd, ∃ q, n = JsNum.num q) :
    ∀ n ∈ numericFields (applyEvents pf events fd), ∃ q, n = JsNum.num q := by
  induction events generalizing fd with
  | nil => exact h
  | cons ev evs ih =>
      exact ih (handleChange pf fd ev.1 ev.2)
        (numericFields_handleChange pf fd ev.1 ev.2 h)

/-! ## C1: the confidence invariant -/

/-- C1: for every probability `p`, the confidence returned with a
prediction equals `|p - 0.5| * 2` (so `confidence(0.5) = 0` and
`confidence(0) = confidence(1) = 1`), and the confidence field of every
prediction is recomputed from its probability field by
`calculate_confidence`, never stored independently. -/
theorem confidence_recomputed_invariant :
    (∀ p : ℚ, calculate_confidence p = |p - 1/2| * 2) ∧
    calculate_confidence (1/2) = 0 ∧
    calculate_confidence 0 = 1 ∧
    calculate_confidence 1 = 1 ∧
    ∀ (pl : Pipeline) (s : StudentInput),
      (make_prediction pl s).confidence =
        calculate_confidence ((make_prediction pl s).probability) := by
  refine ⟨fun p => rfl, ?_, ?_, ?_, fun pl s => rfl⟩
  · norm_num [calculate_confidence]
  · norm_num [calculate_confidence, abs]
  · norm_num [calculate_confidence, abs]

/-! ## C2: the decision threshold -/

/-- C2 counterexample: at probability exactly 1/2 (two trees voting 0
and 1), the returned probability is ≥ 1/2 yet the predicted label is 0,
not 1 — `RandomForestClassifier.predict` breaks the argmax tie towards
class 0, so "label 1 exactly when probability ≥ 0.5" fails. -/
theorem predict_label_tie_counterexample :
    1/2 ≤ (make_prediction tiePipeline sampleStudent).probability ∧
    (make_prediction tiePipeline sampleStudent).predicted_label ≠ 1 := by
  constructor
  · norm_num [make_prediction, Pipeline.predict_proba, tiePipeline, forestProba]
  · norm_num [make_prediction, Pipeline.predict_proba, tiePipeline, forestProba,
      predictLabelFromProba, argmaxIdx, argmaxAux]

/-- C2 amended: for every pipeline and record, the predicted label is 1
exactly when the returned probability is STRICTLY greater than 0.5; at
exactly 0.5 the label is 0 (numpy `argmax` returns the first maximal
index, i.e. class 0, on a tie). -/
theorem predict_label_strict_threshold :
    ∀ (pl : Pipeline) (s : StudentInput),
      (make_prediction pl s).predicted_label = 1 ↔
        1/2 < (make_prediction pl s).probability := by
  intro pl s
  exact predictLabel_eq_one_iff _

/-! ## C3: zero-variance standardization -/

/-- C3 counterexample: fit the scaler on the constant training column
`[5, 5, 5]` (standard deviation 0, since `0 ^ 2` equals its variance);
encoding the inference-time value 7 yields `z = 2`, not 0. -/
theorem scaler_zero_std_counterexample :
    (0 : ℚ) ^ 2 = listVar [5, 5, 5] ∧
    (fitStandardScaler [5, 5, 5] 0).transform 7 = 2 ∧
    (fitStandardScaler [5, 5, 5] 0).transform 7 ≠ 0 := by
  refine ⟨?_, ?_, ?_⟩
  · norm_num [listVar, listMean]
  · norm_num [fitStandardScaler, StandardScalerFitted.transform,
      handle_zeros_in_scale, listMean]
  · norm_num [fitStandardScaler, StandardScalerFitted.transform,
      handle_zeros_in_scale, listMean]

/-- C3 amended: if a feature's standard deviation is 0 at training time,
sklearn's `_handle_zeros_in_scale` replaces the scale by 1, so the
division is never by zero and `z = x - mean`; the value is 0 exactly for
the training-time values (all equal to the mean), while a differing
inference-time value encodes to its nonzero offset from the mean. -/
theorem scaler_zero_std_transform :
    ∀ (xs : List ℚ) (std x : ℚ), xs ≠ [] → std ^ 2 = listVar xs → std = 0 →
      (fitStandardScaler xs std).scale = 1 ∧
      (fitStandardScaler xs std).transform x = x - listMean xs ∧
      (∀ y ∈ xs, (fitStandardScaler xs std).transform y = 0) := by
  intro xs std x hne hsq hz
  subst hz
  have hvar : listVar xs = 0 := by rw [← hsq]; ring
  have htrans : ∀ z : ℚ, (fitStandardScaler xs 0).transform z = z - listMean xs := by
    intro z
    simp [StandardScalerFitted.transform, fitStandardScaler, handle_zeros_in_scale]
  refine ⟨by simp [fitStandardScaler, handle_zeros_in_scale], htrans x, ?_⟩
  intro y hy
  have hlen : ((xs.length : ℚ)) ≠ 0 := by
    have : 0 < xs.length := List.length_pos.2 hne
    positivity
  have hsum : ((xs.map fun z => (z - listMean xs) ^ 2).sum) = 0 := by
    rw [listVar] at hvar
    rcases div_eq_zero_iff.1 hvar with h | h
    · exact h
    · exact absurd h hlen
  have hterm : (y - listMean xs) ^ 2 = 0 :=
    List.all_zero_of_le_zero_le_of_sum_eq_zero
      (by
        intro z hz
        obtain ⟨w, _, hw⟩ := List.mem_map.1 hz
        rw [← hw]
        positivity)
      hsum (List.mem_map_of_mem _ hy)
  have hym : y = listMean xs := by
    have h0 : y - listMean xs = 0 :=
      (pow_eq_zero_iff (by norm_num : (2 : ℕ) ≠ 0)).1 hterm
    linarith
  rw [htrans y, hym, sub_self]

/-- C3 witness: the amended statement at the constant training column
`[5, 5, 5]` with standard deviation 0. -/
theorem scaler_zero_std_transform_witness :
    (fitStandardScaler [5, 5, 5] 0).scale = 1 ∧
    (fitStandardScaler [5, 5, 5] 0).transform 7 = 7 - listMean [5, 5, 5] ∧
    (fitStandardScaler [5, 5, 5] 0).transform 5 = 0 := by
  have h := scaler_zero_std_transform [5, 5, 5] 0 7 (by simp)
    (by norm_num [listVar, listMean]) rfl
  exact ⟨h.1, h.2.1, h.2.2 5 (by simp)⟩

/-! ## C4: unknown categories under `handle_unknown='ignore'` -/

/-- C4: encoding a categorical value absent from the fitted vocabulary
does not error (`OneHotEncoder(handle_unknown='ignore')` yields `some`)
and produces the all-zero indicator block for that feature. -/
theorem unknown_category_all_zeros :
    ∀ (vocab : List String) (x : String), x ∉ vocab →
      oneHotEncode HandleUnknown.ignore vocab x = some (oneHotIgnore vocab x) ∧
      oneHotIgnore vocab x = List.replicate vocab.length 0 := by
  intro vocab x hx
  constructor
  · simp [oneHotEncode, hx]
  · apply List.eq_replicate_iff.2
    refine ⟨by simp [oneHotIgnore], ?_⟩
    intro b hb
    rw [oneHotIgnore] at hb
    obtain ⟨c, hc, hcb⟩ := List.mem_map.1 hb
    have hne : c ≠ x := fun h => hx (h ▸ hc)
    simp [← hcb, hne]

/-- C4 witness: the Gender value "Other" against the fitted vocabulary
["Male", "Female"]. -/
theorem unknown_category_all_zeros_witness :
    oneHotEncode HandleUnknown.ignore [maleValue, femaleValue] otherValue =
      some (oneHotIgnore [maleValue, femaleValue] otherValue) ∧
    oneHotIgnore [maleValue, femaleValue] otherValue =
      List.replicate [maleValue, femaleValue].length 0 := by
  exact unknown_category_all_zeros [maleValue, femaleValue] otherValue (by decide)

/-! ## C7: pipeline-cache idempotence -/

/-- C7: once the model store holds a pipeline `p`, the first
`load_pipeline` call returns it and fills the cache, and every subsequent
call returns the very same cached instance without consulting the store
(the result no longer depends on the store argument). -/
theorem load_pipeline_idempotent :
    ∀ p : Pipeline,
      load_pipeline none (some p) = (some p, some p) ∧
      ∀ store' : Option Pipeline,
        load_pipeline (load_pipeline none (some p)).2 store' =
          (some p, some p) := by
  intro p
  exact ⟨rfl, fun store' => rfl⟩

/-! ## C8: prediction before training -/

/-- C8: with no persisted pipeline in the model store (and the
process-local cache empty, its initial state), `predict` fails with
`ModelNotTrainedError` for every student record, producing no
`PredictionResult`. -/
theorem predict_without_model :
    ∀ s : StudentInput,
      predictService none none s =
        (Except.error ApiError.modelNotTrained, none) := by
  intro s
  rfl

/-! ## C9: undefined metrics at the dashboard -/

/-- C9 counterexample: an undefined/absent `roc_auc` (and likewise a JS
`NaN`) reaching the dashboard is rendered by the metric card as the
fabricated numeric value 0 (`metrics?.roc_auc || 0`) — the undefined
marker is not preserved to the caller. -/
theorem roc_auc_undefined_coerced_counterexample :
    metricCardValue none = 0 ∧ metricCardValue (some JsNum.nan) = 0 := by
  exact ⟨rfl, rfl⟩

/-- C9 amended: the stored metric cannot be NULL (`roc_auc` column is
`nullable=False`), and the dashboard's metric card coerces an
undefined/absent or `NaN` `roc_auc` to the displayed number 0, while a
nonzero numeric value is displayed unchanged: no undefined marker
survives to the caller. -/
theorem roc_auc_undefined_displayed_as_zero :
    rocAucColumnNullable = false ∧
    metricCardValue none = 0 ∧
    metricCardValue (some JsNum.nan) = 0 ∧
    ∀ q : ℚ, q ≠ 0 → metricCardValue (some (JsNum.num q)) = q := by
  refine ⟨rfl, rfl, rfl, ?_⟩
  intro q hq
  simp [metricCardValue, hq]

/-- C9 witness: the amended statement at the value 1. -/
theorem roc_auc_undefined_displayed_as_zero_witness :
    metricCardValue (some (JsNum.num 1)) = 1 :=
  roc_auc_undefined_displayed_as_zero.2.2.2 1 one_ne_zero

/-! ## C10: numeric coercion in the prediction form -/

/-- C10: every `handleChange` on a numeric field stores
`parseFloat(value) || 0` — the parsed number when it is truthy, 0 when
the parse yields `NaN` or `0` — so after any sequence of form events the
four numeric fields are actual numbers (never missing and never `NaN`),
whatever `parseFloat` does. -/
theorem numeric_fields_coerced :
    (∀ (pf : String → JsNum) (events : List (FormField × String)),
      ∀ n ∈ numericFields (applyEvents pf events initialFormData),
        ∃ q, n = JsNum.num q) ∧
    jsOrZero JsNum.nan = JsNum.num 0 ∧
    jsOrZero (JsNum.num 0) = JsNum.num 0 ∧
    ∀ q : ℚ, q ≠ 0 → jsOrZero (JsNum.num q) = JsNum.num q := by
  refine ⟨?_, rfl, by simp [jsOrZero], ?_⟩
  · intro pf events
    apply numericFields_applyEvents
    intro n hn
    simp only [numericFields, initialFormData, List.mem_cons,
      List.not_mem_nil, or_false] at hn
    rcases hn with hn | hn | hn | hn <;> exact ⟨0, hn⟩
  · intro q hq
    simp [jsOrZero, hq]

/-- C10 witness: the truthy branch at the parsed value 5. -/
theorem numeric_fields_coerced_witness :
    jsOrZero (JsNum.num 5) = JsNum.num 5 :=
  numeric_fields_coerced.2.2.2 5 (by norm_num)

/-! ## C5: validation before inference -/

def gpaOutOfDomain (raw : RawStudentInput) : Prop :=
  ∃ g, raw.University_GPA = some g ∧ (g < 0 ∨ 10 < g)

def softOutOfDomain (raw : RawStudentInput) : Prop :=
  ∃ v, raw.Soft_Skills_Score = some v ∧ (v < 0 ∨ 10 < v)

def netOutOfDomain (raw : RawStudentInput) : Prop :=
  ∃ v, raw.Networking_Score = some v ∧ (v < 0 ∨ 10 < v)

def internNegative (raw : RawStudentInput) : Prop :=
  ∃ n, raw.Internships_Completed = some n ∧ n < 0

def someFieldMissing (raw : RawStudentInput) : Prop :=
  raw.University_GPA = none ∨ raw.Field_of_Study = none ∨
    raw.Gender = none ∨ raw.Internships_Completed = none ∨
    raw.Soft_Skills_Score = none ∨ raw.Networking_Score = none

theorem gpaErr_of_dom (raw : RawStudentInput) (h : gpaOutOfDomain raw) :
    gpaErr raw = [gpaField] := by
  obtain ⟨g, hg, hd⟩ := h
  rcases hd with hd | hd <;> simp [gpaErr, hg, hd]

theorem softErr_of_dom (raw : RawStudentInput) (h : softOutOfDomain raw) :
    softErr raw = [softField] := by
  obtain ⟨v, hv, hd⟩ := h
  rcases hd with hd | hd <;> simp [softErr, hv, hd]

theorem netErr_of_dom (raw : RawStudentInput) (h : netOutOfDomain raw) :
    netErr raw = [netField] := by
  obtain ⟨v, hv, hd⟩ := h
  rcases hd with hd | hd <;> simp [netErr, hv, hd]

theorem internErr_of_neg (raw : RawStudentInput) (h : internNegative raw) :
    internErr raw = [internField] := by
  obtain ⟨n, hn, hd⟩ := h
  simp [internErr, hn, hd]

theorem validate_of_errs (raw : RawStudentInput) (h : fieldErrs raw ≠ []) :
    validateStudentInput raw = .error (fieldErrs raw) := by
  cases hE : fieldErrs raw with
  | nil => exact absurd hE h
  | cons a t =>
      rw [validateStudentInput, hE]

/-- C5: a payload with a numeric field outside its documented domain
(GPA/scores outside [0,10], negative internship count) or with a missing
required field is rejected: the endpoint fails with an invalid-input
error naming the offending fields, the result is independent of the
cached/stored pipeline (so no encoding or inference is attempted), and no
`PredictionResult` is produced.  Each offending field is named in the
error's field list. -/
theorem invalid_input_rejected :
    ∀ raw : RawStudentInput,
      gpaOutOfDomain raw ∨ softOutOfDomain raw ∨ netOutOfDomain raw ∨
          internNegative raw ∨ someFieldMissing raw →
      fieldErrs raw ≠ [] ∧
      (∀ cache store : Option Pipeline,
        predictEndpoint cache store raw =
          (.error (.invalidInput (fieldErrs raw)), cache)) ∧
      (gpaOutOfDomain raw → gpaField ∈ fieldErrs raw) ∧
      (softOutOfDomain raw → softField ∈ fieldErrs raw) ∧
      (netOutOfDomain raw → netField ∈ fieldErrs raw) ∧
      (internNegative raw → internField ∈ fieldErrs raw) ∧
      (raw.University_GPA = none → gpaField ∈ fieldErrs raw) ∧
      (raw.Field_of_Study = none → fosField ∈ fieldErrs raw) ∧
      (raw.Gender = none → genderField ∈ fieldErrs raw) ∧
      (raw.Internships_Completed = none → internField ∈ fieldErrs raw) ∧
      (raw.Soft_Skills_Score = none → softField ∈ fieldErrs raw) ∧
      (raw.Networking_Score = none → netField ∈ fieldErrs raw) := by
  intro raw h
  have hgpa : gpaOutOfDomain raw → gpaField ∈ fieldErrs raw := by
    intro hc
    simp [fieldErrs, gpaErr_of_dom raw hc]
  have hsoft : softOutOfDomain raw → softField ∈ fieldErrs raw := by
    intro hc
    simp [fieldErrs, softErr_of_dom raw hc]
  have hnet : netOutOfDomain raw → netField ∈ fieldErrs raw := by
    intro hc
    simp [fieldErrs, netErr_of_dom raw hc]
  have hintern : internNegative raw → internField ∈ fieldErrs raw := by
    intro hc
    simp [fieldErrs, internErr_of_neg raw hc]
  have hmgpa : raw.University_GPA = none → gpaField ∈ fieldErrs raw := by
    intro hc
    simp [fieldErrs, gpaErr, hc]
  have hmfos : raw.Field_of_Study = none → fosField ∈ fieldErrs raw := by
    intro hc
    simp [fieldErrs, fosErr, hc]
  have hmgender : raw.Gender = none → genderField ∈ fieldErrs raw := by
    intro hc
    simp [fieldErrs, genderErr, hc]
  have hmintern : raw.Internships_Completed = none →
      internField ∈ fieldErrs raw := by
    intro hc
    simp [fieldErrs, internErr, hc]
  have hmsoft : raw.Soft_Skills_Score = none → softField ∈ fieldErrs raw := by
    intro hc
    simp [fieldErrs, softErr, hc]
  have hmnet : raw.Networking_Score = none → netField ∈ fieldErrs raw := by
    intro hc
    simp [fieldErrs, netErr, hc]
  have hne : fieldErrs raw ≠ [] := by
    rcases h with hc | hc | hc | hc | hc
    · exact List.ne_nil_of_mem (hgpa hc)
    · exact List.ne_nil_of_mem (hsoft hc)
    · exact List.ne_nil_of_mem (hnet hc)
    · exact List.ne_nil_of_mem (hintern hc)
    · rcases hc with hc | hc | hc | hc | hc | hc
      · exact List.ne_nil_of_mem (hmgpa hc)
      · exact List.ne_nil_of_mem (hmfos hc)
      · exact List.ne_nil_of_mem (hmgender hc)
      · exact List.ne_nil_of_mem (hmintern hc)
      · exact List.ne_nil_of_mem (hmsoft hc)
      · exact List.ne_nil_of_mem (hmnet hc)
  refine ⟨hne, ?_, hgpa, hsoft, hnet, hintern, hmgpa, hmfos, hmgender,
    hmintern, hmsoft, hmnet⟩
  intro cache store
  rw [predictEndpoint, validate_of_errs raw hne]

/-- C5 witness: the end-to-end record with GPA 11 is rejected naming
`University_GPA`, independently of the pipeline state. -/
theorem invalid_input_rejected_witness :
    fieldErrs badGpaRaw ≠ [] ∧
    predictEndpoint none none badGpaRaw =
      (.error (.invalidInput (fieldErrs badGpaRaw)), none) ∧
    gpaField ∈ fieldErrs badGpaRaw := by
  have h := invalid_input_rejected badGpaRaw
    (Or.inl ⟨11, rfl, Or.inr (by norm_num)⟩)
  exact ⟨h.1, h.2.1 none none, h.2.2.1 ⟨11, rfl, Or.inr (by norm_num)⟩⟩

/-! ## C6: metric invariants (spec-modelled, see `computeMetrics`) -/

theorem le_foldr_max (l : List ℚ) (a : ℚ) : ∀ x ∈ l, x ≤ l.foldr max a := by
  induction l with
  | nil => simp
  | cons b t ih =>
      intro x hx
      rcases List.mem_cons.1 hx with h | h
      · subst h
        exact le_max_left _ _
      · exact le_trans (ih x h) (le_max_right _ _)

theorem getLast_le_of_sorted_ge :
    ∀ (l : List ℚ) (hne : l ≠ []), List.Sorted (· ≥ ·) l →
      ∀ x ∈ l, l.getLast hne ≤ x := by
  intro l
  induction l with
  | nil =>
      intro hne
      simp at hne
  | cons a t ih =>
      intro hne hs x hx
      cases t with
      | nil =>
          simp only [List.mem_singleton] at hx
          subst hx
          simp
      | cons b t' =>
          have hlast : (a :: b :: t').getLast hne = (b :: t').getLast (by simp) :=
            List.getLast_cons (by simp)
          rcases List.mem_cons.1 hx with hxa | hxt
          · subst hxa
            have hmem : (b :: t').getLast (by simp) ∈ b :: t' :=
              List.getLast_mem _
            have := (List.sorted_cons.1 hs).1 _ hmem
            rw [hlast]
            exact this
          · rw [hlast]
            exact ih (by simp) (List.sorted_cons.1 hs).2 x hxt

theorem tpAt_le_posCount (pairs : List (Bool × ℚ)) (t : ℚ) :
    tpAt pairs t ≤ posCount pairs := by
  apply List.countP_mono_left
  intro pr _ h
  simp only [Bool.and_eq_true] at h
  exact h.1

theorem fpAt_le_negCount (pairs : List (Bool × ℚ)) (t : ℚ) :
    fpAt pairs t ≤ negCount pairs := by
  apply List.countP_mono_left
  intro pr _ h
  simp only [Bool.and_eq_true] at h
  exact h.1

theorem tpAt_anti (pairs : List (Bool × ℚ)) {t₁ t₂ : ℚ} (h : t₂ ≤ t₁) :
    tpAt pairs t₁ ≤ tpAt pairs t₂ := by
  apply List.countP_mono_left
  intro pr _ hp
  simp only [Bool.and_eq_true, decide_eq_true_eq] at hp ⊢
  exact ⟨hp.1, le_trans h hp.2⟩

theorem fpAt_anti (pairs : List (Bool × ℚ)) {t₁ t₂ : ℚ} (h : t₂ ≤ t₁) :
    fpAt pairs t₁ ≤ fpAt pairs t₂ := by
  apply List.countP_mono_left
  intro pr _ hp
  simp only [Bool.and_eq_true, decide_eq_true_eq] at hp ⊢
  exact ⟨hp.1, le_trans h hp.2⟩

theorem tpAt_sentinel (pairs : List (Bool × ℚ)) :
    tpAt pairs (maxScore pairs + 1) = 0 := by
  apply List.countP_eq_zero.2
  intro pr hpr hp
  simp only [Bool.and_eq_true, decide_eq_true_eq] at hp
  have hle : pr.2 ≤ maxScore pairs :=
    le_foldr_max _ _ _ (List.mem_map_of_mem Prod.snd hpr)
  linarith [hp.2]

theorem fpAt_sentinel (pairs : List (Bool × ℚ)) :
    fpAt pairs (maxScore pairs + 1) = 0 := by
  apply List.countP_eq_zero.2
  intro pr hpr hp
  simp only [Bool.and_eq_true, decide_eq_true_eq] at hp
  have hle : pr.2 ≤ maxScore pairs :=
    le_foldr_max _ _ _ (List.mem_map_of_mem Prod.snd hpr)
  linarith [hp.2]

theorem tpAt_all (pairs : List (Bool × ℚ)) (t : ℚ)
    (h : ∀ pr ∈ pairs, t ≤ pr.2) : tpAt pairs t = posCount pairs := by
  apply List.countP_congr
  intro pr hpr
  simp [decide_eq_true (h pr hpr)]

theorem fpAt_all (pairs : List (Bool × ℚ)) (t : ℚ)
    (h : ∀ pr ∈ pairs, t ≤ pr.2) : fpAt pairs t = negCount pairs := by
  apply List.countP_congr
  intro pr hpr
  simp [decide_eq_true (h pr hpr)]

theorem sorted_rocThresholds (pairs : List (Bool × ℚ)) :
    List.Sorted (· ≥ ·) (rocThresholds pairs) := by
  unfold rocThresholds
  apply List.sorted_cons.2
  refine ⟨?_, List.sorted_insertionSort _ _⟩
  intro b hb
  have hbs : b ∈ (scoresOf pairs).dedup := (List.mem_insertionSort _).1 hb
  have : b ≤ maxScore pairs := le_foldr_max _ _ _ (List.mem_dedup.1 hbs)
  linarith

theorem rocThresholds_ne_nil (pairs : List (Bool × ℚ)) :
    rocThresholds pairs ≠ [] := by
  unfold rocThresholds
  simp

/-- The lowest swept threshold is below every score. -/
theorem rocThresholds_getLast_le (pairs : List (Bool × ℚ))
    (hne : pairs ≠ []) (hT : rocThresholds pairs ≠ []) :
    ∀ pr ∈ pairs, (rocThresholds pairs).getLast hT ≤ pr.2 := by
  intro pr hpr
  obtain ⟨q, hq⟩ := List.exists_mem_of_ne_nil pairs hne
  have hscore : q.2 ∈ (scoresOf pairs).dedup.insertionSort (· ≥ ·) :=
    (List.mem_insertionSort _).2 (List.mem_dedup.2 (List.mem_map_of_mem Prod.snd hq))
  have hsne : (scoresOf pairs).dedup.insertionSort (· ≥ ·) ≠ [] :=
    List.ne_nil_of_mem hscore
  have hlast : (rocThresholds pairs).getLast hT =
      ((scoresOf pairs).dedup.insertionSort (· ≥ ·)).getLast hsne := by
    unfold rocThresholds
    exact List.getLast_cons hsne
  rw [hlast]
  apply getLast_le_of_sorted_ge _ hsne (List.sorted_insertionSort _ _)
  exact (List.mem_insertionSort _).2
    (List.mem_dedup.2 (List.mem_map_of_mem Prod.snd hpr))

theorem chain_fpr (pairs : List (Bool × ℚ)) (hN : 0 < negCount pairs) :
    List.Chain' (· ≤ ·) ((rocPoints pairs).map Prod.fst) := by
  have hNQ : (0 : ℚ) < (negCount pairs : ℚ) := by exact_mod_cast hN
  rw [rocPoints, List.map_map]
  apply (List.chain'_map _).2
  apply List.Chain'.imp ?_
    (List.chain'_iff_pairwise.2 (sorted_rocThresholds pairs))
  intro a b hab
  show (rocPoint pairs a).1 ≤ (rocPoint pairs b).1
  rw [rocPoint, rocPoint]
  exact (div_le_div_iff_of_pos_right hNQ).2 (by exact_mod_cast fpAt_anti pairs hab)

theorem chain_tpr (pairs : List (Bool × ℚ)) (hP : 0 < posCount pairs) :
    List.Chain' (· ≤ ·) ((rocPoints pairs).map Prod.snd) := by
  have hPQ : (0 : ℚ) < (posCount pairs : ℚ) := by exact_mod_cast hP
  rw [rocPoints, List.map_map]
  apply (List.chain'_map _).2
  apply List.Chain'.imp ?_
    (List.chain'_iff_pairwise.2 (sorted_rocThresholds pairs))
  intro a b hab
  show (rocPoint pairs a).2 ≤ (rocPoint pairs b).2
  rw [rocPoint, rocPoint]
  exact (div_le_div_iff_of_pos_right hPQ).2 (by exact_mod_cast tpAt_anti pairs hab)

theorem rocPoints_tpr_bounds (pairs : List (Bool × ℚ))
    (hP : 0 < posCount pairs) :
    ∀ p ∈ rocPoints pairs, 0 ≤ p.2 ∧ p.2 ≤ 1 := by
  have hPQ : (0 : ℚ) < (posCount pairs : ℚ) := by exact_mod_cast hP
  intro p hp
  obtain ⟨t, _, hpt⟩ := List.mem_map.1 hp
  rw [← hpt, rocPoint]
  constructor
  · positivity
  · rw [div_le_one hPQ]
    exact_mod_cast tpAt_le_posCount pairs t

theorem trapArea_nonneg :
    ∀ l : List (ℚ × ℚ), List.Chain' (fun a b => a.1 ≤ b.1) l →
      (∀ p ∈ l, 0 ≤ p.2) → 0 ≤ trapArea l := by
  intro l
  induction l with
  | nil =>
      intro _ _
      simp [trapArea]
  | cons p rest ih =>
      cases rest with
      | nil =>
          intro _ _
          simp [trapArea]
      | cons q rest' =>
          intro hch hnn
          obtain ⟨hpq, hch'⟩ := List.chain'_cons.1 hch
          have h1 : 0 ≤ (q.1 - p.1) * (p.2 + q.2) / 2 := by
            have hp2 : 0 ≤ p.2 := hnn p (by simp)
            have hq2 : 0 ≤ q.2 := hnn q (by simp)
            have : 0 ≤ q.1 - p.1 := by linarith
            positivity
          have h2 : 0 ≤ trapArea (q :: rest') :=
            ih hch' fun r hr => hnn r (List.mem_cons_of_mem p hr)
          rw [trapArea]
          linarith

theorem trapArea_le :
    ∀ (l : List (ℚ × ℚ)) (hne : l ≠ []),
      List.Chain' (fun a b => a.1 ≤ b.1) l → (∀ p ∈ l, p.2 ≤ 1) →
      trapArea l ≤ (l.getLast hne).1 - (l.head hne).1 := by
  intro l
  induction l with
  | nil =>
      intro hne
      simp at hne
  | cons p rest ih =>
      cases rest with
      | nil =>
          intro _ _ _
          simp [trapArea]
      | cons q rest' =>
          intro hne hch hub
          obtain ⟨hpq, hch'⟩ := List.chain'_cons.1 hch
          have hrec : trapArea (q :: rest') ≤
              ((q :: rest').getLast (by simp)).1 - q.1 :=
            ih (by simp) hch' fun r hr => hub r (List.mem_cons_of_mem p hr)
          have hterm : (q.1 - p.1) * (p.2 + q.2) / 2 ≤ q.1 - p.1 := by
            have hp2 : p.2 ≤ 1 := hub p (by simp)
            have hq2 : q.2 ≤ 1 := hub q (by simp)
            have hd : 0 ≤ q.1 - p.1 := by linarith
            nlinarith
          have hlast : ((p :: q :: rest').getLast hne) =
              ((q :: rest').getLast (by simp)) := List.getLast_cons (by simp)
          rw [trapArea, hlast]
          simp only [List.head_cons]
          linarith

theorem sum_map_div (l : List ℚ) (S : ℚ) :
    (l.map fun x => x / S).sum = l.sum / S := by
  induction l with
  | nil => simp
  | cons x t ih => simp [ih, add_div]

theorem importances_sum (ws : List (String × ℚ))
    (h : 0 < (ws.map Prod.snd).sum) :
    ((normalizeImportances ws).map Prod.snd).sum = 1 := by
  rw [normalizeImportances, List.map_map]
  have h1 : (ws.map (Prod.snd ∘ fun fw : String × ℚ =>
      (fw.1, fw.2 / (ws.map Prod.snd).sum))) =
      ((ws.map Prod.snd).map fun x => x / (ws.map Prod.snd).sum) := by
    rw [List.map_map]
    rfl
  rw [h1, sum_map_div, div_self (ne_of_gt h)]

theorem fpr_head_eq_zero (pairs : List (Bool × ℚ)) :
    ((rocPoints pairs).map Prod.fst).head? = some 0 := by
  have h0 : fpAt pairs (maxScore pairs + 1) = 0 := fpAt_sentinel pairs
  simp [rocPoints, rocThresholds, rocPoint, h0]

theorem tpr_head_eq_zero (pairs : List (Bool × ℚ)) :
    ((rocPoints pairs).map Prod.snd).head? = some 0 := by
  have h0 : tpAt pairs (maxScore pairs + 1) = 0 := tpAt_sentinel pairs
  simp [rocPoints, rocThresholds, rocPoint, h0]

theorem fpr_getLast_eq_one (pairs : List (Bool × ℚ)) (hne : pairs ≠ [])
    (hN : 0 < negCount pairs) :
    ((rocPoints pairs).map Prod.fst).getLast? = some 1 := by
  have hNQ : ((negCount pairs : ℚ)) ≠ 0 := by
    have : (0 : ℚ) < (negCount pairs : ℚ) := by exact_mod_cast hN
    linarith
  have hT := rocThresholds_ne_nil pairs
  have hfp : fpAt pairs ((rocThresholds pairs).getLast hT) = negCount pairs :=
    fpAt_all pairs _ (rocThresholds_getLast_le pairs hne hT)
  rw [rocPoints, List.map_map, List.getLast?_map,
    List.getLast?_eq_getLast _ hT]
  have hval : (rocPoint pairs ((rocThresholds pairs).getLast hT)).1 = 1 := by
    rw [rocPoint]
    dsimp only
    rw [hfp]
    exact div_self hNQ
  simpa [Function.comp] using hval

theorem tpr_getLast_eq_one (pairs : List (Bool × ℚ)) (hne : pairs ≠ [])
    (hP : 0 < posCount pairs) :
    ((rocPoints pairs).map Prod.snd).getLast? = some 1 := by
  have hPQ : ((posCount pairs : ℚ)) ≠ 0 := by
    have : (0 : ℚ) < (posCount pairs : ℚ) := by exact_mod_cast hP
    linarith
  have hT := rocThresholds_ne_nil pairs
  have htp : tpAt pairs ((rocThresholds pairs).getLast hT) = posCount pairs :=
    tpAt_all pairs _ (rocThresholds_getLast_le pairs hne hT)
  rw [rocPoints, List.map_map, List.getLast?_map,
    List.getLast?_eq_getLast _ hT]
  have hval : (rocPoint pairs ((rocThresholds pairs).getLast hT)).2 = 1 := by
    rw [rocPoint]
    dsimp only
    rw [htp]
    exact div_self hPQ
  simpa [Function.comp] using hval

theorem rocPoints_chain_fst (pairs : List (Bool × ℚ)) (hN : 0 < negCount pairs) :
    List.Chain' (fun a b : ℚ × ℚ => a.1 ≤ b.1) (rocPoints pairs) := by
  have hNQ : (0 : ℚ) < (negCount pairs : ℚ) := by exact_mod_cast hN
  rw [rocPoints]
  apply (List.chain'_map _).2
  apply List.Chain'.imp ?_
    (List.chain'_iff_pairwise.2 (sorted_rocThresholds pairs))
  intro a b hab
  show (rocPoint pairs a).1 ≤ (rocPoint pairs b).1
  rw [rocPoint, rocPoint]
  exact (div_le_div_iff_of_pos_right hNQ).2 (by exact_mod_cast fpAt_anti pairs hab)

theorem rocAuc_bounds (pairs : List (Bool × ℚ)) (hne : pairs ≠ [])
    (hP : 0 < posCount pairs) (hN : 0 < negCount pairs) :
    0 ≤ rocAucOf pairs ∧ rocAucOf pairs ≤ 1 := by
  have hchain := rocPoints_chain_fst pairs hN
  have htprs := rocPoints_tpr_bounds pairs hP
  have hpne : rocPoints pairs ≠ [] := by
    rw [rocPoints, rocThresholds]
    simp
  constructor
  · exact trapArea_nonneg _ hchain fun p hp => (htprs p hp).1
  · have hle := trapArea_le (rocPoints pairs) hpne hchain
      fun p hp => (htprs p hp).2
    have hhead : ((rocPoints pairs).head hpne).1 = 0 := by
      have h1 : ((rocPoints pairs).map Prod.fst).head? = some 0 :=
        fpr_head_eq_zero pairs
      have h2 : ((rocPoints pairs).map Prod.fst).head? =
          some (((rocPoints pairs).head hpne).1) := by
        rw [List.head?_map]
        rw [List.head?_eq_head hpne]
        rfl
      rw [h2] at h1
      exact Option.some.inj h1
    have hlast : ((rocPoints pairs).getLast hpne).1 = 1 := by
      have h1 : ((rocPoints pairs).map Prod.fst).getLast? = some 1 :=
        fpr_getLast_eq_one pairs hne hN
      have h2 : ((rocPoints pairs).map Prod.fst).getLast? =
          some (((rocPoints pairs).getLast hpne).1) := by
        rw [List.getLast?_map]
        rw [List.getLast?_eq_getLast _ hpne]
        rfl
      rw [h2] at h1
      exact Option.some.inj h1
    unfold rocAucOf
    calc trapArea (rocPoints pairs)
        ≤ ((rocPoints pairs).getLast hpne).1 -
            ((rocPoints pairs).head hpne).1 := hle
      _ = 1 - 0 := by rw [hhead, hlast]
      _ = 1 := by norm_num

theorem accuracy_bounds (pairs : List (Bool × ℚ)) (hne : pairs ≠ []) :
    0 ≤ accuracyOf pairs ∧ accuracyOf pairs ≤ 1 := by
  have hlen : (0 : ℚ) < (pairs.length : ℚ) := by
    exact_mod_cast List.length_pos.2 hne
  constructor
  · rw [accuracyOf]
    positivity
  · rw [accuracyOf, div_le_one hlen]
    exact_mod_cast List.countP_le_length _

theorem precision_bounds (pairs : List (Bool × ℚ)) :
    0 ≤ precisionOf pairs ∧ precisionOf pairs ≤ 1 := by
  rw [precisionOf]
  split_ifs with h
  · norm_num
  · have hpos : 0 < tpAt pairs (1/2) + fpAt pairs (1/2) := Nat.pos_of_ne_zero h
    have hq : (0 : ℚ) < (tpAt pairs (1/2) : ℚ) + (fpAt pairs (1/2) : ℚ) := by
      exact_mod_cast hpos
    constructor
    · positivity
    · rw [div_le_one hq]
      have : (0 : ℚ) ≤ (fpAt pairs (1/2) : ℚ) := by positivity
      linarith

theorem recall_bounds (pairs : List (Bool × ℚ)) :
    0 ≤ recallOf pairs ∧ recallOf pairs ≤ 1 := by
  rw [recallOf]
  split_ifs with h
  · norm_num
  · have hpos : 0 < posCount pairs := Nat.pos_of_ne_zero h
    have hq : (0 : ℚ) < (posCount pairs : ℚ) := by exact_mod_cast hpos
    constructor
    · positivity
    · rw [div_le_one hq]
      exact_mod_cast tpAt_le_posCount pairs (1/2)

theorem f1_bounds (pairs : List (Bool × ℚ)) :
    0 ≤ f1Of pairs ∧ f1Of pairs ≤ 1 := by
  obtain ⟨hp0, hp1⟩ := precision_bounds pairs
  obtain ⟨hr0, hr1⟩ := recall_bounds pairs
  rw [f1Of]
  split_ifs with h
  · norm_num
  · have hsum : 0 < precisionOf pairs + recallOf pairs :=
      lt_of_le_of_ne (by linarith) (Ne.symm h)
    constructor
    · positivity
    · rw [div_le_one hsum]
      nlinarith [mul_nonneg hp0 (sub_nonneg.2 hr1),
        mul_nonneg hr0 (sub_nonneg.2 hp1)]

/-- C6: for every training run with both classes present in the test
partition and a positive total feature attribution, the produced
`EvaluationMetrics` satisfies: accuracy, precision, recall, F1 and
ROC-AUC all lie in [0,1]; the normalized feature importances sum to
exactly 1; and the ROC curve's fpr and tpr sequences have equal length,
start at (0,0), end at (1,1), and are monotonically non-decreasing.
(Spec-modelled: `computeMetrics` follows the spec's description of the
metric computation, which is absent from the repository sources.) -/
theorem metrics_invariants :
    ∀ (pairs : List (Bool × ℚ)) (ws : List (String × ℚ)),
      0 < posCount pairs → 0 < negCount pairs →
      0 < (ws.map Prod.snd).sum →
      (0 ≤ (computeMetrics pairs ws).accuracy ∧
        (computeMetrics pairs ws).accuracy ≤ 1) ∧
      (0 ≤ (computeMetrics pairs ws).precision ∧
        (computeMetrics pairs ws).precision ≤ 1) ∧
      (0 ≤ (computeMetrics pairs ws).recall' ∧
        (computeMetrics pairs ws).recall' ≤ 1) ∧
      (0 ≤ (computeMetrics pairs ws).f1_score ∧
        (computeMetrics pairs ws).f1_score ≤ 1) ∧
      (0 ≤ (computeMetrics pairs ws).roc_auc ∧
        (computeMetrics pairs ws).roc_auc ≤ 1) ∧
      ((computeMetrics pairs ws).feature_importances.map Prod.snd).sum = 1 ∧
      (computeMetrics pairs ws).fpr.length =
        (computeMetrics pairs ws).tpr.length ∧
      (computeMetrics pairs ws).fpr.head? = some 0 ∧
      (computeMetrics pairs ws).tpr.head? = some 0 ∧
      (computeMetrics pairs ws).fpr.getLast? = some 1 ∧
      (computeMetrics pairs ws).tpr.getLast? = some 1 ∧
      List.Chain' (· ≤ ·) (computeMetrics pairs ws).fpr ∧
      List.Chain' (· ≤ ·) (computeMetrics pairs ws).tpr := by
  intro pairs ws hP hN hws
  have hne : pairs ≠ [] := by
    intro h
    rw [h] at hP
    simp [posCount] at hP
  refine ⟨accuracy_bounds pairs hne, precision_bounds pairs,
    recall_bounds pairs, f1_bounds pairs, rocAuc_bounds pairs hne hP hN,
    importances_sum ws hws, ?_, fpr_head_eq_zero pairs,
    tpr_head_eq_zero pairs, fpr_getLast_eq_one pairs hne hN,
    tpr_getLast_eq_one pairs hne hP, chain_fpr pairs hN, chain_tpr pairs hP⟩
  show ((rocPoints pairs).map Prod.fst).length =
    ((rocPoints pairs).map Prod.snd).length
  rw [List.length_map, List.length_map]

/-- A two-example test partition with one example of each class. -/
def samplePairs : List (Bool × ℚ) := [(true, 1), (false, 0)]

def sampleWeights : List (String × ℚ) := [(gpaField, 1)]

/-- C6 witness: the metric invariants at a concrete two-example test
partition containing both classes. -/
theorem metrics_invariants_witness :
    0 < posCount samplePairs ∧ 0 < negCount samplePairs ∧
    0 < ((sampleWeights.map Prod.snd).sum) ∧
    ((computeMetrics samplePairs sampleWeights).feature_importances.map
      Prod.snd).sum = 1 ∧
    (computeMetrics samplePairs sampleWeights).fpr.head? = some 0 ∧
    (computeMetrics samplePairs sampleWeights).fpr.getLast? = some 1 := by
  obtain ⟨_, _, _, _, _, hsum, _, hhead, _, hlastf, _, _, _⟩ :=
    metrics_invariants samplePairs sampleWeights (by decide) (by decide)
      (by simp [sampleWeights])
  exact ⟨by decide, by decide, by simp [sampleWeights], hsum, hhead, hlastf⟩

end CareerPredictor
